import Mathlib

/-!
Shallow embedding of the mlcts repository (crates mlcts_core and
mlcts_from_my) used to check the natural-language specification against
the code.

Strings are modelled as `List Char` (one entry per Unicode scalar, exactly
the values Rust's `str::chars()` yields).  Rust byte lengths are recovered
through `char_utf8_size`/`byte_len` (the UTF-8 width of each scalar), which
lets us state the byte-count behaviour of `parse_syllable` faithfully.
Fallible Rust functions returning `Result<T, &str>` become
`Except (List Char) T`.
-/

-- Equality on Rust Result values is decidable componentwise; Lean core
-- does not ship this instance for Except, so it is derived here (used only
-- to state and decide concrete evaluations).
deriving instance DecidableEq for Except

namespace Mlcts

/-- Embeds enum BasicConsonant of mlcts_core/src/lib.rs (27 variants). -/
inductive BasicConsonant
  | K | Hk | G | Gh | Ng | C | Hc | J | Jh | Ny | T | Ht | D | Dh | N
  | P | Hp | B | Bh | M | Y | R | L | W | S | H | A
  deriving DecidableEq, Repr

/-- Embeds BasicConsonant::to_mlcts (direct lookup table). -/
def BasicConsonant.to_mlcts : BasicConsonant → List Char
  | .K => ['k']
  | .Hk => ['h', 'k']
  | .G => ['g']
  | .Gh => ['g', 'h']
  | .Ng => ['n', 'g']
  | .C => ['c']
  | .Hc => ['h', 'c']
  | .J => ['j']
  | .Jh => ['j', 'h']
  | .Ny => ['n', 'y']
  | .T => ['t']
  | .Ht => ['h', 't']
  | .D => ['d']
  | .Dh => ['d', 'h']
  | .N => ['n']
  | .P => ['p']
  | .Hp => ['h', 'p']
  | .B => ['b']
  | .Bh => ['b', 'h']
  | .M => ['m']
  | .Y => ['y']
  | .R => ['r']
  | .L => ['l']
  | .W => ['w']
  | .S => ['s']
  | .H => ['h']
  | .A => ['a']

/-- Embeds BasicConsonant::from_my_alphabet: the match over the 34 Myanmar
consonant letters of the block U+1000 to U+1021, every other char is Err. -/
def BasicConsonant.from_my_alphabet (c : Char) : Except Unit BasicConsonant :=
  match c with
  | 'က' => .ok .K
  | 'ခ' => .ok .Hk
  | 'ဂ' => .ok .G
  | 'ဃ' => .ok .Gh
  | 'င' => .ok .Ng
  | 'စ' => .ok .C
  | 'ဆ' => .ok .Hc
  | 'ဇ' => .ok .J
  | 'ဈ' => .ok .Jh
  | 'ဉ' => .ok .Ny
  | 'ည' => .ok .Ny
  | 'ဋ' => .ok .T
  | 'ဌ' => .ok .Ht
  | 'ဍ' => .ok .D
  | 'ဎ' => .ok .Dh
  | 'ဏ' => .ok .N
  | 'တ' => .ok .T
  | 'ထ' => .ok .Ht
  | 'ဒ' => .ok .D
  | 'ဓ' => .ok .Dh
  | 'န' => .ok .N
  | 'ပ' => .ok .P
  | 'ဖ' => .ok .Hp
  | 'ဗ' => .ok .B
  | 'ဘ' => .ok .Bh
  | 'မ' => .ok .M
  | 'ယ' => .ok .Y
  | 'ရ' => .ok .R
  | 'လ' => .ok .L
  | 'ဝ' => .ok .W
  | 'သ' => .ok .S
  | 'ဟ' => .ok .H
  | 'ဠ' => .ok .L
  | 'အ' => .ok .A
  | _ => .error ()

/-- Embeds enum MedialDiacritic (11 variants). -/
inductive MedialDiacritic
  | Y | R | W | H | Yw | Rw | Hy | Hr | Hw | Hyw | Hrw
  deriving DecidableEq, Repr

/-- Embeds MedialDiacritic::combine: the seven legal compositions. -/
def MedialDiacritic.combine : MedialDiacritic → MedialDiacritic →
    Except Unit MedialDiacritic
  | .H, .Y => .ok .Hy
  | .H, .R => .ok .Hr
  | .H, .W => .ok .Hw
  | .Y, .W => .ok .Yw
  | .R, .W => .ok .Rw
  | .Hy, .W => .ok .Hyw
  | .Hr, .W => .ok .Hrw
  | _, _ => .error ()

/-- Embeds enum Tone. -/
inductive Tone
  | High | Creaky
  deriving DecidableEq, Repr

/-- Embeds Tone::to_mlcts. -/
def Tone.to_mlcts : Tone → List Char
  | .High => [':']
  | .Creaky => ['.']

/-- Embeds enum Virama of mlcts_core (15 variants). -/
inductive Virama
  | K | G | Ng | C | J | Ny | T | Ht | D | N | P | B | M | S | L
  deriving DecidableEq, Repr

/-- Embeds Virama::to_mlcts. -/
def Virama.to_mlcts : Virama → List Char
  | .K => ['k']
  | .G => ['g']
  | .Ng => ['n', 'g']
  | .C => ['c']
  | .J => ['j']
  | .Ny => ['n', 'y']
  | .T => ['t']
  | .Ht => ['h', 't']
  | .D => ['d']
  | .N => ['n']
  | .P => ['p']
  | .B => ['b']
  | .M => ['m']
  | .S => ['s']
  | .L => ['l']

/-- Embeds enum BasicVowel. -/
inductive BasicVowel
  | A | I | U | E | Ai | Au | Ui
  deriving DecidableEq, Repr

/-- Embeds BasicVowel::to_mlcts. -/
def BasicVowel.to_mlcts : BasicVowel → List Char
  | .A => ['a']
  | .I => ['i']
  | .U => ['u']
  | .E => ['e']
  | .Ai => ['a', 'i']
  | .Au => ['a', 'u']
  | .Ui => ['u', 'i']

/-- Embeds struct Consonant: basic letter plus optional medial. -/
structure Consonant where
  basic : BasicConsonant
  medial : Option MedialDiacritic
  deriving DecidableEq, Repr

/-- Embeds Consonant::simple. -/
def Consonant.simple (basic : BasicConsonant) : Consonant :=
  ⟨basic, none⟩

/-- Embeds Consonant::with_medial. -/
def Consonant.with_medial (basic : BasicConsonant) (medial : MedialDiacritic) :
    Consonant :=
  ⟨basic, some medial⟩

/-- Embeds Consonant::to_mlcts: the Rust formats the medial around the
basic letter with the format strings hXrw, hXyw, hXw, hXr, hXy, hX, rXw,
rX, yXw, yX, wX (X the basic letter's spelling). -/
def Consonant.to_mlcts (c : Consonant) : List Char :=
  let result := c.basic.to_mlcts
  match c.medial with
  | some .Hrw => 'h' :: result ++ ['r', 'w']
  | some .Hyw => 'h' :: result ++ ['y', 'w']
  | some .Hw => 'h' :: result ++ ['w']
  | some .Hr => 'h' :: result ++ ['r']
  | some .Hy => 'h' :: result ++ ['y']
  | some .H => 'h' :: result
  | some .Rw => 'r' :: result ++ ['w']
  | some .R => 'r' :: result
  | some .Yw => 'y' :: result ++ ['w']
  | some .Y => 'y' :: result
  | some .W => 'w' :: result
  | none => result

/-- Embeds struct Vowel: basic vowel, optional virama, optional tone. -/
structure Vowel where
  basic : BasicVowel
  virama : Option Virama
  tone : Option Tone
  deriving DecidableEq, Repr

/-- Embeds Vowel::simple. -/
def Vowel.simple (basic : BasicVowel) : Vowel :=
  ⟨basic, none, none⟩

/-- Embeds Vowel::with_tone. -/
def Vowel.with_tone (basic : BasicVowel) (tone : Option Tone) : Vowel :=
  ⟨basic, none, tone⟩

/-- Embeds Vowel::with_virama. -/
def Vowel.with_virama (basic : BasicVowel) (virama : Virama) : Vowel :=
  ⟨basic, some virama, none⟩

/-- Embeds Vowel::to_mlcts: basic vowel, then virama letters, then tone. -/
def Vowel.to_mlcts (v : Vowel) : List Char :=
  let result := v.basic.to_mlcts
  let virama := match v.virama with
    | some vr => vr.to_mlcts
    | none => []
  let tone := match v.tone with
    | some t => t.to_mlcts
    | none => []
  result ++ virama ++ tone

/-- Embeds struct BaseSyllable (no bottom slot). -/
structure BaseSyllable where
  consonant : Consonant
  vowel : Vowel
  deriving DecidableEq, Repr

/-- Embeds struct Syllable (consonant, vowel, optional stacked bottom). -/
structure Syllable where
  consonant : Consonant
  vowel : Vowel
  bottom_syllable : Option BaseSyllable
  deriving DecidableEq, Repr

/-- Embeds the Into conversion from BaseSyllable to Syllable
(bottom becomes None). -/
def BaseSyllable.into_syllable (b : BaseSyllable) : Syllable :=
  ⟨b.consonant, b.vowel, none⟩

/-- Embeds the Into conversion from Syllable to BaseSyllable: the bottom
slot of the source syllable is silently discarded. -/
def Syllable.into_base (s : Syllable) : BaseSyllable :=
  ⟨s.consonant, s.vowel⟩

/-- Embeds Syllable::new. -/
def Syllable.new (consonant : Consonant) (vowel : Vowel)
    (bottom_syllable : Option BaseSyllable) : Syllable :=
  ⟨consonant, vowel, bottom_syllable⟩

/-- Embeds Syllable::to_mlcts.  The Rust converts the bottom BaseSyllable
back into a Syllable (whose bottom is None) and recurses on it; the
recursion therefore stops after one level.  We keep that shape and realise
the recursion structurally through a fuel argument that the cap of 2 can
never exhaust. -/
def Syllable.to_mlcts_fuel : Nat → Syllable → List Char
  | 0, _ => []
  | fuel + 1, s =>
    let consonant := s.consonant.to_mlcts
    let vowel := s.vowel.to_mlcts
    let bottom := match s.bottom_syllable with
      | some b => Syllable.to_mlcts_fuel fuel b.into_syllable
      | none => []
    consonant ++ vowel ++ bottom

/-- Embeds Syllable::to_mlcts (depth two always suffices: the recursive
call receives a syllable whose bottom slot is None). -/
def Syllable.to_mlcts (s : Syllable) : List Char :=
  Syllable.to_mlcts_fuel 2 s

/-- Sentinel the Rust parser substitutes for a missing char
(const EOF_CHAR: char = 0 as char). -/
def EOF_CHAR : Char := '\x00'

/-- UTF-8 width in bytes of one scalar, as Rust's char::len_utf8. -/
def char_utf8_size (c : Char) : Nat :=
  if c.toNat < 0x80 then 1
  else if c.toNat < 0x800 then 2
  else if c.toNat < 0x10000 then 3
  else 4

/-- Byte length of a string modelled as a char list (Rust str::len). -/
def byte_len : List Char → Nat
  | [] => 0
  | c :: rest => char_utf8_size c + byte_len rest

/-- Embeds fn parse_consonant of mlcts_from_my/src/lib.rs.  The Rust
returns the consonant and the consumed byte length, recomputed from its
local cursor as input.len() minus cursor.as_str().len(); it lands exactly
at the cursor position, so we also hand back the remaining chars (the
cursor) that parse_syllable re-slices the input to. -/
def parse_consonant (input : List Char) :
    Except (List Char) (Mlcts.Consonant × Nat × List Char) :=
  match Mlcts.BasicConsonant.from_my_alphabet (input.headD EOF_CHAR) with
  | .error _ => .error input
  | .ok consonant =>
    let cursor := input.tail
    let (consonant, cursor) :=
      if consonant = Mlcts.BasicConsonant.A then
        (Mlcts.Consonant.simple .A, cursor)
      else
        let m1 := cursor.headD EOF_CHAR
        let m2 := (cursor.drop 1).headD EOF_CHAR
        let m3 := (cursor.drop 2).headD EOF_CHAR
        -- medials: Y = U+103B, R = U+103C, W = U+103D, H = U+103E
        match m1, m2, m3 with
        | 'ြ', 'ွ', 'ှ' =>
          (Mlcts.Consonant.with_medial consonant .Hrw, cursor.drop 3)
        | 'ျ', 'ွ', 'ှ' =>
          (Mlcts.Consonant.with_medial consonant .Hyw, cursor.drop 3)
        | 'ွ', 'ှ', _ =>
          (Mlcts.Consonant.with_medial consonant .Hw, cursor.drop 2)
        | 'ြ', 'ွ', _ =>
          (Mlcts.Consonant.with_medial consonant .Rw, cursor.drop 2)
        | 'ျ', 'ွ', _ =>
          (Mlcts.Consonant.with_medial consonant .Yw, cursor.drop 2)
        | 'ြ', 'ှ', _ =>
          (Mlcts.Consonant.with_medial consonant .Hr, cursor.drop 2)
        | 'ျ', 'ှ', _ =>
          (Mlcts.Consonant.with_medial consonant .Hy, cursor.drop 2)
        | 'ွ', _, _ =>
          (Mlcts.Consonant.with_medial consonant .W, cursor.drop 1)
        | 'ြ', _, _ =>
          (Mlcts.Consonant.with_medial consonant .R, cursor.drop 1)
        | 'ျ', _, _ =>
          (Mlcts.Consonant.with_medial consonant .Y, cursor.drop 1)
        | 'ှ', _, _ =>
          (Mlcts.Consonant.with_medial consonant .H, cursor.drop 1)
        | _, _, _ => (Mlcts.Consonant.simple consonant, cursor)
    .ok (consonant, byte_len input - byte_len cursor, cursor)

/-- Outcome of the vowel dispatch inside parse_syllable: either one of the
rows that return from the function immediately, or the carried-forward
partial vowel together with the updated consumed count and cursor. -/
def VowelStep : Type :=
  Except (List Char) (Mlcts.Syllable × Nat) ⊕ (Mlcts.Vowel × Nat × List Char)

/-- One row of the vowel dispatch of fn parse_syllable (step 2 of the
span algorithm): the 1 to 3 chars the row requires at the cursor (none is
a wildcard; the source spells the missing-char sentinel as the nul char)
and the action taken.  finish rows return from parse_syllable at once
with the given vowel, advancing the count by adv; carry rows hand the
partial vowel to the virama dispatch after consuming adv chars. -/
inductive VowelAction
  | finish (v : Mlcts.Vowel) (adv : Nat)
  | carry (v : Mlcts.Vowel) (adv : Nat)
  deriving DecidableEq, Repr

/-- A vowel dispatch row: required first char, optional required second
and third chars, action. -/
structure VowelRow where
  c1 : Char
  c2 : Option Char
  c3 : Option Char
  action : VowelAction
  deriving DecidableEq, Repr

/-- Whether a vowel dispatch row matches the three peeked chars. -/
def vowel_row_matches (r : VowelRow) (v1 v2 v3 : Char) : Bool :=
  v1 = r.c1 &&
  (match r.c2 with | none => true | some c => v2 = c) &&
  (match r.c3 with | none => true | some c => v3 = c)

/-- The vowel dispatch rows of fn parse_syllable, in the order the Rust
match lists them (first match wins).  The nul char stands for the
end-of-span sentinel the source calls EOF_CHAR. -/
def vowel_table : List VowelRow := [
  ⟨'ာ', some 'း', some '\x00', .finish (Mlcts.Vowel.with_tone .A (some .High)) 2⟩,
  ⟨'ာ', some '\x00', some '\x00', .finish (Mlcts.Vowel.simple .A) 1⟩,
  ⟨'ာ', none, none, .carry (Mlcts.Vowel.simple .A) 1⟩,
  ⟨'ယ', some '်', some '\x00', .finish (Mlcts.Vowel.simple .Ai) 2⟩,
  ⟨'ဲ', some '့', some '\x00', .finish (Mlcts.Vowel.with_tone .Ai (some .Creaky)) 2⟩,
  ⟨'ဲ', some '\x00', some '\x00', .finish (Mlcts.Vowel.with_tone .Ai (some .High)) 1⟩,
  ⟨'ေ', some 'ာ', some '်', .finish (Mlcts.Vowel.simple .Au) 3⟩,
  ⟨'ေ', some 'ာ', some '့', .finish (Mlcts.Vowel.with_tone .Au (some .Creaky)) 3⟩,
  ⟨'ေ', some 'ာ', some '\x00', .finish (Mlcts.Vowel.simple .Au) 2⟩,
  ⟨'ေ', some 'ာ', none, .carry (Mlcts.Vowel.simple .Au) 2⟩,
  ⟨'ူ', some '\x00', some '\x00', .finish (Mlcts.Vowel.simple .U) 1⟩,
  ⟨'ူ', some 'း', some '\x00', .finish (Mlcts.Vowel.with_tone .U (some .High)) 2⟩,
  ⟨'ူ', some '့', some '\x00', .finish (Mlcts.Vowel.simple .U) 1⟩,
  ⟨'ု', none, none, .carry (Mlcts.Vowel.with_tone .U (some .Creaky)) 1⟩,
  ⟨'ိ', some 'ူ', some 'း', .finish (Mlcts.Vowel.with_tone .Ui (some .High)) 3⟩,
  ⟨'ိ', some 'ူ', some '့', .finish (Mlcts.Vowel.with_tone .Ui (some .Creaky)) 3⟩,
  ⟨'ိ', some 'ူ', some '\x00', .finish (Mlcts.Vowel.simple .Ui) 2⟩,
  ⟨'ိ', some 'ူ', none, .carry (Mlcts.Vowel.simple .Ui) 2⟩,
  ⟨'ီ', some '\x00', some '\x00', .finish (Mlcts.Vowel.simple .I) 1⟩,
  ⟨'ီ', some 'း', some '\x00', .finish (Mlcts.Vowel.with_tone .I (some .High)) 2⟩,
  ⟨'ိ', some '\x00', some '\x00', .finish (Mlcts.Vowel.simple .I) 1⟩,
  ⟨'ိ', none, none, .carry (Mlcts.Vowel.simple .I) 1⟩,
  ⟨'ေ', some 'း', some '\x00', .finish (Mlcts.Vowel.with_tone .E (some .High)) 2⟩,
  ⟨'ေ', some '့', some '\x00', .finish (Mlcts.Vowel.with_tone .E (some .Creaky)) 2⟩,
  ⟨'ေ', some '\x00', some '\x00', .finish (Mlcts.Vowel.simple .E) 1⟩,
  ⟨'ေ', none, none, .carry (Mlcts.Vowel.simple .E) 1⟩]

/-- The vowel dispatch of fn parse_syllable (step 2, written inline as a
match in the Rust): the first matching row decides; no row means the
implicit vowel A is carried forward with nothing consumed. -/
def vowel_step (consonant : Mlcts.Consonant) (consumed_len : Nat)
    (rest : List Char) : VowelStep :=
  let v1 := rest.headD EOF_CHAR
  let v2 := (rest.drop 1).headD EOF_CHAR
  let v3 := (rest.drop 2).headD EOF_CHAR
  match vowel_table.find? (fun r => vowel_row_matches r v1 v2 v3) with
  | some r =>
    match r.action with
    | .finish v adv =>
      .inl (.ok (Mlcts.Syllable.new consonant v none, consumed_len + adv))
    | .carry v adv => .inr (v, consumed_len + adv, rest.drop adv)
  | none => .inr (Mlcts.Vowel.simple .A, consumed_len, rest)

/-- The action of one row of the virama and stacked-consonant dispatch of
fn parse_syllable (step 3 of the span algorithm): finish closes the
syllable with the given virama (and tone when the row carries one),
advancing the count by adv; stack sets the virama, drops dropn chars of
the cursor past the top consonant and recursively parses the bottom;
ligature is the \u103f row (the remainder is re-parsed as \u101e followed
by the chars after the ligature, and the returned count ignores the
bottom); invalid is the rejected row. -/
inductive FinalAction
  | finish (virama : Mlcts.Virama) (tone : Option Mlcts.Tone) (adv : Nat)
  | stack (virama : Mlcts.Virama) (dropn : Nat)
  | ligature
  | invalid
  deriving DecidableEq, Repr

/-- A virama dispatch row: the admissible top consonants, the required
sign char (none is a wildcard), the admissible third chars (empty list is
a wildcard), the required fourth char (none is a wildcard), the action. -/
structure FinalRow where
  tops : List Char
  sign : Option Char
  thirds : List Char
  fourth : Option Char
  action : FinalAction
  deriving DecidableEq, Repr

/-- Whether a virama dispatch row matches the four peeked chars. -/
def final_row_matches (r : FinalRow) (top sign third fourth : Char) : Bool :=
  r.tops.contains top &&
  (match r.sign with | none => true | some c => sign = c) &&
  (r.thirds.isEmpty || r.thirds.contains third) &&
  (match r.fourth with | none => true | some c => fourth = c)

/-- The virama and stacked-consonant dispatch rows of fn parse_syllable,
in the order the Rust match lists them (first match wins).  The asat is
\u103a, the stack sign \u1039; the nul char is the end-of-span sentinel. -/
def final_table : List FinalRow := [
  ⟨['က'], some '်', ['\x00'], some '\x00', .finish .K none 2⟩,
  ⟨['က'], some '္', ['က', 'ခ'], none, .stack .K 1⟩,
  ⟨['ဂ'], some '္', ['ဂ', 'ဃ'], none, .stack .G 1⟩,
  ⟨['င'], some '်', ['္'], some '\x00', .invalid⟩,
  ⟨['င'], some '်', ['္'], none, .stack .Ng 2⟩,
  ⟨['င'], some '်', [':'], some '\x00', .finish .Ng (some .High) 3⟩,
  ⟨['င'], some '်', ['.'], some '\x00', .finish .Ng (some .Creaky) 3⟩,
  ⟨['စ'], some '်', ['\x00'], some '\x00', .finish .C none 2⟩,
  ⟨['စ'], some '္', ['စ', 'ဆ'], none, .stack .C 1⟩,
  ⟨['ဇ'], some '္', ['ဇ', 'ဈ'], none, .stack .J 1⟩,
  ⟨['ည', 'ဉ'], some '်', ['\x00'], some '\x00', .finish .Ny none 2⟩,
  ⟨['ည', 'ဉ'], some '်', ['.'], some '\x00', .finish .Ny (some .Creaky) 3⟩,
  ⟨['ည', 'ဉ'], some '်', [':'], some '\x00', .finish .Ny (some .High) 3⟩,
  ⟨['ည', 'ဉ'], some '္', ['စ', 'ဇ'], none, .stack .Ny 1⟩,
  ⟨['ဋ'], some '်', ['\x00'], some '\x00', .finish .T none 2⟩,
  ⟨['ဋ'], some '္', ['ဋ', 'ဌ'], none, .stack .T 1⟩,
  ⟨['ဍ'], some '္', ['ဍ', 'ဎ'], none, .stack .D 1⟩,
  ⟨['ဏ'], some '်', ['\x00'], some '\x00', .finish .N none 2⟩,
  ⟨['ဏ'], some '္', ['ဍ'], none, .stack .N 1⟩,
  ⟨['တ'], some '်', ['\x00'], some '\x00', .finish .T none 2⟩,
  ⟨['တ'], some '္', ['တ'], none, .stack .T 1⟩,
  ⟨['ထ'], some '္', ['ထ'], none, .stack .Ht 1⟩,
  ⟨['ဒ'], some '္', ['ဒ'], none, .stack .D 1⟩,
  ⟨['န'], some '်', ['\x00'], some '\x00', .finish .N none 2⟩,
  ⟨['န'], some '်', [':'], some '\x00', .finish .N (some .High) 3⟩,
  ⟨['န'], some '်', ['.'], some '\x00', .finish .N (some .Creaky) 3⟩,
  ⟨['န'], some '္', ['တ', 'ထ', 'ဒ', 'ဓ', 'န'], none, .stack .N 1⟩,
  ⟨['ပ'], some '်', ['\x00'], some '\x00', .finish .P none 2⟩,
  ⟨['ပ'], some '္', ['ပ'], none, .stack .P 1⟩,
  ⟨['ဗ'], some '္', ['ဗ', 'ဘ'], none, .stack .B 1⟩,
  ⟨['မ'], some '်', ['\x00'], some '\x00', .finish .M none 2⟩,
  ⟨['မ'], some '်', [':'], some '\x00', .finish .M (some .High) 3⟩,
  ⟨['မ'], some '်', ['.'], some '\x00', .finish .M (some .Creaky) 3⟩,
  ⟨['မ'], some '္', ['ပ', 'ဗ', 'ဘ', 'မ'], none, .stack .M 1⟩,
  ⟨['ဿ'], none, [], none, .ligature⟩,
  ⟨['လ'], some '္', ['လ'], none, .stack .L 1⟩]

/-- Applies the action of the matched virama dispatch row.  recur stands
for the recursive parse_syllable call the Rust makes for stacked bottoms;
syllable is the whole span (echoed inside errors), vowel and consumed_len
the state carried out of the vowel dispatch, tail1 the cursor after the
top consonant was consumed. -/
def apply_final_action (recur : List Char → Except (List Char) (Mlcts.Syllable × Nat))
    (syllable : List Char) (consonant : Mlcts.Consonant) (vowel : Mlcts.Vowel)
    (consumed_len : Nat) (tail1 : List Char) :
    FinalAction → Except (List Char) (Mlcts.Syllable × Nat)
  | .finish v t adv =>
    let vowel := match t with
      | some t' => { vowel with virama := some v, tone := some t' }
      | none => { vowel with virama := some v }
    .ok (Mlcts.Syllable.new consonant vowel none, consumed_len + adv)
  | .stack v dropn =>
    match recur (tail1.drop dropn) with
    | .ok (c, l) =>
      .ok (Mlcts.Syllable.new consonant { vowel with virama := some v }
        (some c.into_base), consumed_len + 2 + l)
    | .error _ => .error syllable
  | .ligature =>
    match recur ('သ' :: tail1) with
    | .ok (c, _) =>
      .ok (Mlcts.Syllable.new consonant { vowel with virama := some .S }
        (some c.into_base), consumed_len + 1)
    | .error _ => .error syllable
  | .invalid => .error syllable

/-- The virama and stacked-consonant dispatch of fn parse_syllable
(step 3, written inline as a match in the Rust): the first matching row
decides; no row is the UnknownCluster error, echoing the span. -/
def parse_final (recur : List Char → Except (List Char) (Mlcts.Syllable × Nat))
    (syllable : List Char) (consonant : Mlcts.Consonant) (vowel : Mlcts.Vowel)
    (consumed_len : Nat) (tail : List Char) :
    Except (List Char) (Mlcts.Syllable × Nat) :=
  let top_consonant := tail.headD EOF_CHAR
  let tail1 := tail.tail
  let sign := tail1.headD EOF_CHAR
  let virama_sign_or_bottom_consonant := (tail1.drop 1).headD EOF_CHAR
  let extra_char := (tail1.drop 2).headD EOF_CHAR
  match final_table.find? (fun r =>
      final_row_matches r top_consonant sign
        virama_sign_or_bottom_consonant extra_char) with
  | some r =>
    apply_final_action recur syllable consonant vowel consumed_len tail1 r.action
  | none => .error syllable

/-- Embeds fn parse_syllable of mlcts_from_my/src/lib.rs: consonant
sub-parser, then the vowel dispatch, then the virama and stacked-consonant
dispatch.  The recursion (stacked bottoms, and the \u103f ligature rewrite)
is realised structurally through a fuel argument; every recursive call of
the Rust happens after at least one char of the argument was consumed, so
the fuel input.length + 1 supplied by parse_syllable below can never be
exhausted. -/
def parse_syllable_fuel : Nat → List Char → Except (List Char) (Mlcts.Syllable × Nat)
  | 0, syllable => .error syllable
  | fuel + 1, syllable =>
    match parse_consonant syllable with
    | .error e => .error e
    | .ok (consonant, consumed_len, rest) =>
      if consumed_len = byte_len syllable then
        .ok (Mlcts.Syllable.new consonant (Mlcts.Vowel.simple .A) none, consumed_len)
      else
        match vowel_step consonant consumed_len rest with
        | .inl r => r
        | .inr (vowel, consumed_len, tail) =>
          parse_final (parse_syllable_fuel fuel) syllable consonant vowel
            consumed_len tail

/-- Embeds pub fn parse_syllable.  The fuel input.length + 1 bounds the
recursion depth: every recursive call of the Rust happens after at least
one char of its argument was consumed, so arguments get strictly shorter. -/
def parse_syllable (syllable : List Char) : Except (List Char) (Mlcts.Syllable × Nat) :=
  parse_syllable_fuel (syllable.length + 1) syllable

/-- The Unicode White_Space scalars, the set the backslash-s class of the
fancy_regex crate matches in its default Unicode mode. -/
def is_unicode_whitespace (c : Char) : Bool :=
  ['\x09', '\x0a', '\x0b', '\x0c', '\x0d', ' ',
    '\u0085', '\u00a0', '\u1680',
    '\u2000', '\u2001', '\u2002', '\u2003', '\u2004', '\u2005', '\u2006',
    '\u2007', '\u2008', '\u2009', '\u200a',
    '\u2028', '\u2029', '\u202f', '\u205f', '\u3000'].contains c

/-- The bracketed character class of the split_syllables regex:
ASCII letters and digits, the listed Myanmar independent vowels and
section symbols, the Myanmar digits ၀ to ၉, the Myanmar punctuation
၊ and ။, the ASCII punctuation ranges, and whitespace. -/
def is_boundary_class_char (c : Char) : Bool :=
  ('a' ≤ c && c ≤ 'z') || ('A' ≤ c && c ≤ 'Z') || ('0' ≤ c && c ≤ '9') ||
  ['ဣ', 'ဤ', 'ဥ', 'ဦ', 'ဧ', 'ဩ', 'ဪ', '၌', '၍', '၏'].contains c ||
  ('၀' ≤ c && c ≤ '၉') ||
  ['၊', '။'].contains c ||
  ('!' ≤ c && c ≤ '/') || (':' ≤ c && c ≤ '@') ||
  ('[' ≤ c && c ≤ '\x60') || ('\x7b' ≤ c && c ≤ '~') ||
  is_unicode_whitespace c

/-- Whether a char lies in the Myanmar consonant range က to အ
(U+1000 to U+1021), the class the regex writes as a range. -/
def is_my_consonant_char (c : Char) : Bool :=
  'က' ≤ c && c ≤ 'အ'

/-- One position of the split_syllables regex: a consonant start
(a Myanmar consonant letter not preceded by the stack sign and not
followed by asat or the stack sign) or a member of the bracketed class.
prev and next are the neighbouring chars when they exist. -/
def is_boundary (prev : Option Char) (c : Char) (next : Option Char) : Bool :=
  (is_my_consonant_char c &&
    !(prev == some '္') &&
    !(next == some '်') && !(next == some '္')) ||
  is_boundary_class_char c

/-- The neighbour char before position i, none at the start. -/
def prev_at (s : List Char) (i : Nat) : Option Char :=
  match i with
  | 0 => none
  | j + 1 => s.get? j

/-- Whether position i of s is a match start of the boundary regex. -/
def is_boundary_at (s : List Char) (i : Nat) : Bool :=
  match s.get? i with
  | none => false
  | some c => is_boundary (prev_at s i) c (s.get? (i + 1))

/-- The ascending list of match start positions the regex find_iter
produces (every match of the pattern is a single char, so the matches are
exactly the positions satisfying is_boundary_at).  Rust reports byte
offsets; we use the order-isomorphic char positions. -/
def boundary_indices (s : List Char) : List Nat :=
  (List.range s.length).filter (fun i => is_boundary_at s i)

/-- Embeds pub fn split_syllables: consecutive match positions delimit
half-open spans (windows of size 2), the last match opens the span that
runs to the end of the string.  Text before the first match belongs to no
span. -/
def split_syllables (s : List Char) : List (List Char) :=
  let ms := boundary_indices s
  (ms.zip ms.tail).map (fun w => (s.drop w.1).take (w.2 - w.1)) ++
    (match ms.getLast? with
     | none => []
     | some l => [s.drop l])

/-- Embeds pub fn from_my: split into spans, render each parsed span as
MLCTS, pass the span through verbatim when parse_syllable fails, and
concatenate. -/
def from_my (input : List Char) : List Char :=
  ((split_syllables input).map (fun s =>
    match parse_syllable s with
    | .error _ => s
    | .ok (r, _) => r.to_mlcts)).flatten

/-- The 34 code points of the Myanmar consonant block U+1000 to U+1021
(the match arms of BasicConsonant::from_my_alphabet cover exactly these). -/
def myanmar_consonant_block : List Char :=
  (List.range 34).map (fun i => Char.ofNat (0x1000 + i))

/-- How many chars of the Myanmar consonant block from_my_alphabet
accepts. -/
def ok_consonant_count : Nat :=
  (myanmar_consonant_block.filter
    (fun c => (Mlcts.BasicConsonant.from_my_alphabet c).isOk)).length

end Mlcts

section Helpers

/-- Helper: any Ok result of apply_final_action carries a vowel whose
virama slot was just set, whatever the row action and recursion results
were: every row of the virama dispatch table stores some virama into the
vowel it returns. -/
theorem apply_final_action_virama
    (recur : List Char → Except (List Char) (Mlcts.Syllable × Nat))
    (syllable : List Char) (consonant : Mlcts.Consonant) (vowel : Mlcts.Vowel)
    (consumed_len : Nat) (tail1 : List Char) (a : Mlcts.FinalAction)
    (syl : Mlcts.Syllable) (n : Nat)
    (h : Mlcts.apply_final_action recur syllable consonant vowel consumed_len
      tail1 a = .ok (syl, n)) :
    syl.vowel.virama.isSome = true := by
  unfold Mlcts.apply_final_action at h
  split at h <;>
    first
    | (injection h with h1; injection h1 with h1 h2; subst h1;
       simp only [Mlcts.Syllable.new]; split <;> simp)
    | exact absurd h (by simp)
    | (split at h <;>
        first
        | (injection h with h1; injection h1 with h1 h2; subst h1;
           simp [Mlcts.Syllable.new])
        | exact absurd h (by simp))

/-- Helper: any Ok result of parse_final carries a vowel with a virama
(parse_final either hits a table row, whose action always sets one, or
errors). -/
theorem parse_final_virama
    (recur : List Char → Except (List Char) (Mlcts.Syllable × Nat))
    (syllable : List Char) (consonant : Mlcts.Consonant) (vowel : Mlcts.Vowel)
    (consumed_len : Nat) (tail : List Char) (syl : Mlcts.Syllable) (n : Nat)
    (h : Mlcts.parse_final recur syllable consonant vowel consumed_len tail =
      .ok (syl, n)) :
    syl.vowel.virama.isSome = true := by
  unfold Mlcts.parse_final at h
  dsimp only at h
  split at h
  case _ r heq => exact apply_final_action_virama _ _ _ _ _ _ _ _ _ h
  case _ => exact absurd h (by simp)

/-- Helper: every finished (left-summand) result of the vowel dispatch is
a syllable without a bottom: only the virama dispatch attaches bottoms. -/
theorem vowel_step_inl_bottom_none (consonant : Mlcts.Consonant)
    (consumed_len : Nat) (rest : List Char) (syl : Mlcts.Syllable) (n : Nat)
    (h : Mlcts.vowel_step consonant consumed_len rest = .inl (.ok (syl, n))) :
    syl.bottom_syllable = none := by
  unfold Mlcts.vowel_step at h
  dsimp only at h
  split at h
  case _ r heq =>
    split at h <;>
      first
      | (injection h with h1; injection h1 with h1; injection h1 with h1 h2;
         subst h1; simp [Mlcts.Syllable.new])
      | exact absurd h (by simp)
  case _ => exact absurd h (by simp)

/-- Helper: the bottom-implies-virama invariant for the fuelled parser,
for every fuel value. -/
theorem parse_syllable_fuel_bottom_virama (fuel : Nat) (s : List Char)
    (syl : Mlcts.Syllable) (n : Nat)
    (h : Mlcts.parse_syllable_fuel fuel s = .ok (syl, n))
    (hb : syl.bottom_syllable.isSome = true) :
    syl.vowel.virama.isSome = true := by
  cases fuel with
  | zero => exact absurd h (by simp [Mlcts.parse_syllable_fuel])
  | succ f =>
    simp only [Mlcts.parse_syllable_fuel] at h
    split at h
    · exact absurd h (by simp)
    · split at h
      · injection h with h1
        injection h1 with h1 h2
        subst h1
        simp [Mlcts.Syllable.new] at hb
      · split at h
        case _ r heq =>
          subst h
          have hnone := vowel_step_inl_bottom_none _ _ _ _ _ heq
          rw [hnone] at hb
          exact absurd hb (by simp)
        case _ => exact parse_final_virama _ _ _ _ _ _ _ _ h

/-- Helper: concatenating the half-open spans cut at an ascending list of
positions, plus the final span running to the end, recovers the suffix of
the string that starts at the first position. -/
theorem spans_flatten (s : List Char) :
    ∀ ms : List Nat, ms.Chain' (· ≤ ·) →
    ((ms.zip ms.tail).map (fun w => (s.drop w.1).take (w.2 - w.1)) ++
      (match ms.getLast? with
       | none => []
       | some l => [s.drop l])).flatten = s.drop (ms.headD s.length)
  | [], _ => by simp
  | [a], _ => by simp
  | a :: b :: t, hc => by
    have hab : a ≤ b := hc.rel_head
    have ih := spans_flatten s (b :: t) hc.tail
    simp only [List.tail_cons, List.getLast?_cons_cons, List.headD_cons]
      at ih ⊢
    rw [show (a :: b :: t).zip (b :: t) = (a, b) :: (b :: t).zip t from rfl,
      List.map_cons, List.cons_append, List.flatten_cons, ih]
    have h2 := List.drop_take_append_drop s a (b - a)
    rwa [Nat.add_sub_cancel' hab] at h2

/-- Helper: the regex match positions are ascending (a filtered range). -/
theorem boundary_indices_chain (s : List Char) :
    (Mlcts.boundary_indices s).Chain' (· ≤ ·) :=
  (((List.pairwise_lt_range _).filter _).imp le_of_lt).chain'

end Helpers


/-- Claim C1, counterexample: the claim says the non-H medial letters are
appended to the basic letter, so (basic K, medial Y) would render as ky;
the code renders it as yk (the y is prepended). -/
theorem c1_medial_rendering_counterexample :
    Mlcts.Consonant.to_mlcts ⟨.K, some .Y⟩ = ['y', 'k'] ∧
    Mlcts.Consonant.to_mlcts ⟨.K, some .Y⟩ ≠ ['k', 'y'] := by
  decide

/-- Claim C1, amended: for every basic consonant, the H-family medials
render as h, then the basic letter, then the remaining letters (as the
claim says; in particular (M, Hyw) gives hmyw), but for the non-H medials
the first medial letter (y, r or w) is prepended to the basic letter and
only a trailing w (of Yw, Rw) is appended. -/
theorem c1_medial_rendering_amended :
    (∀ b : Mlcts.BasicConsonant,
      Mlcts.Consonant.to_mlcts ⟨b, some .H⟩ = ['h'] ++ b.to_mlcts ∧
      Mlcts.Consonant.to_mlcts ⟨b, some .Hy⟩ = ['h'] ++ b.to_mlcts ++ ['y'] ∧
      Mlcts.Consonant.to_mlcts ⟨b, some .Hr⟩ = ['h'] ++ b.to_mlcts ++ ['r'] ∧
      Mlcts.Consonant.to_mlcts ⟨b, some .Hw⟩ = ['h'] ++ b.to_mlcts ++ ['w'] ∧
      Mlcts.Consonant.to_mlcts ⟨b, some .Hyw⟩ =
        ['h'] ++ b.to_mlcts ++ ['y', 'w'] ∧
      Mlcts.Consonant.to_mlcts ⟨b, some .Hrw⟩ =
        ['h'] ++ b.to_mlcts ++ ['r', 'w'] ∧
      Mlcts.Consonant.to_mlcts ⟨b, some .Y⟩ = ['y'] ++ b.to_mlcts ∧
      Mlcts.Consonant.to_mlcts ⟨b, some .R⟩ = ['r'] ++ b.to_mlcts ∧
      Mlcts.Consonant.to_mlcts ⟨b, some .W⟩ = ['w'] ++ b.to_mlcts ∧
      Mlcts.Consonant.to_mlcts ⟨b, some .Yw⟩ = ['y'] ++ b.to_mlcts ++ ['w'] ∧
      Mlcts.Consonant.to_mlcts ⟨b, some .Rw⟩ = ['r'] ++ b.to_mlcts ++ ['w']) ∧
    Mlcts.Consonant.to_mlcts ⟨.M, some .Hyw⟩ = ['h', 'm', 'y', 'w'] :=
  ⟨fun _ => ⟨rfl, rfl, rfl, rfl, rfl, rfl, rfl, rfl, rfl, rfl, rfl⟩, by decide⟩

/-- Claim C2, counterexample: parse_syllable on the four chars of the
stacked cluster (whose UTF-8 length is indeed 12 bytes) does not return
the claimed value: the claim has virama T and a consumed count of 12,
while the code assigns virama K (from the stacked top letter) and reports
8 (the onset is counted in bytes, the stack cluster as 2 chars). -/
theorem c2_takka_counterexample :
    Mlcts.byte_len ['တ', 'က', '္', 'က'] = 12 ∧
    Mlcts.parse_syllable ['တ', 'က', '္', 'က'] ≠
      .ok (⟨⟨.T, none⟩, ⟨.A, some .T, none⟩,
        some ⟨⟨.K, none⟩, ⟨.A, none, none⟩⟩⟩, 12) := by
  decide

/-- Claim C2, amended: parse_syllable of the stacked cluster returns Ok
with consonant T and no medial, vowel basic A with virama K (the virama
comes from the stacked top letter, not T) and no tone, bottom Some(K, A);
the reported consumed count is 8, not the full 12 bytes. -/
theorem c2_takka_amended :
    Mlcts.parse_syllable ['တ', 'က', '္', 'က'] =
      .ok (⟨⟨.T, none⟩, ⟨.A, some .K, none⟩,
        some ⟨⟨.K, none⟩, ⟨.A, none, none⟩⟩⟩, 8) := by
  decide

/-- Claim C3, counterexample: on an input consisting of one vowel sign
(which is not a boundary start) split_syllables returns no spans at all,
so the concatenation of the spans is empty and differs from the input:
split_syllables is not a partition. -/
theorem c3_partition_counterexample :
    Mlcts.split_syllables ['ာ'] = [] ∧
    (Mlcts.split_syllables ['ာ']).flatten ≠ ['ာ'] := by
  decide

/-- Claim C3, amended: concatenating in order all spans returned by
split_syllables yields the suffix of the input starting at the first
boundary position; the prefix before the first boundary is dropped (so
the concatenation equals the input exactly when the input is empty or
starts with a boundary, and is empty when no boundary occurs at all). -/
theorem c3_partition_amended : ∀ s : List Char,
    (Mlcts.split_syllables s).flatten =
      s.drop ((Mlcts.boundary_indices s).headD s.length) := by
  intro s
  unfold Mlcts.split_syllables
  exact spans_flatten s _ (boundary_indices_chain s)

/-- Claim C4: from_my is total (it is a plain function in this embedding,
defined for every input) and equals the in-order concatenation, over the
spans of split_syllables, of the parsed syllable's MLCTS rendering when
parse_syllable succeeds and of the raw span verbatim when it fails. -/
theorem c4_from_my_recovers : ∀ input : List Char,
    Mlcts.from_my input =
      ((Mlcts.split_syllables input).map (fun s =>
        ((Mlcts.parse_syllable s).toOption.map
          (fun r => r.1.to_mlcts)).getD s)).flatten := by
  intro input
  unfold Mlcts.from_my
  have hfun : (fun s : List Char =>
      match Mlcts.parse_syllable s with
      | .error _ => s
      | .ok (r, _) => r.to_mlcts) =
      (fun s : List Char =>
        ((Mlcts.parse_syllable s).toOption.map (fun r => r.1.to_mlcts)).getD s) := by
    funext sp
    cases h : Mlcts.parse_syllable sp with
    | error e => simp [h, Except.toOption]
    | ok v => cases v with
      | mk r n => simp [h, Except.toOption]
  rw [hfun]

/-- Claim C5: every Ok result of parse_syllable (including the ones its
recursive calls produce, which are themselves parse_syllable results on
the bottom spans) that carries a bottom syllable also carries a virama. -/
theorem c5_bottom_implies_virama : ∀ (s : List Char) (syl : Mlcts.Syllable)
    (n : Nat), Mlcts.parse_syllable s = .ok (syl, n) →
    syl.bottom_syllable.isSome = true →
    syl.vowel.virama.isSome = true := by
  intro s syl n h hb
  exact parse_syllable_fuel_bottom_virama _ s syl n h hb

/-- Claim C5, witness: the stacked cluster တက္က parses to a syllable with
a bottom, and the theorem yields that its virama slot is filled. -/
theorem c5_bottom_implies_virama_witness :
    (⟨⟨.T, none⟩, ⟨.A, some .K, none⟩,
      some ⟨⟨.K, none⟩, ⟨.A, none, none⟩⟩⟩ : Mlcts.Syllable).vowel.virama.isSome
      = true :=
  c5_bottom_implies_virama ['တ', 'က', '္', 'က']
    ⟨⟨.T, none⟩, ⟨.A, some .K, none⟩, some ⟨⟨.K, none⟩, ⟨.A, none, none⟩⟩⟩ 8
    (by decide) (by decide)

/-- Claim C6: the code violates the claimed invariant.  On the span
က ု က ် (consonant, u-vowel sign, final consonant, asat) parse_syllable
returns Ok with virama K and tone Some Creaky: the creaky tone attached
to the ု vowel row is carried into a K-final syllable, although the
Vowel documentation in mlcts_core states that the inherently creaky
finals K, C, T, P admit no tone mark. -/
theorem c6_creaky_tone_with_k_virama :
    Mlcts.parse_syllable ['က', 'ု', 'က', '်'] =
      .ok (⟨⟨.K, none⟩, ⟨.U, some .K, some .Creaky⟩, none⟩, 6) := by
  decide

/-- Claim C7, counterexample: the accepting domain of from_my_alphabet
has 34 code points, not 33: the block U+1000 to U+1021 consists of 34
distinct chars and from_my_alphabet accepts every one of them (both ဉ and
ည are separate code points mapped to Ny). -/
theorem c7_consonant_domain_counterexample :
    Mlcts.ok_consonant_count = 34 ∧
    Mlcts.myanmar_consonant_block.Nodup ∧
    Mlcts.myanmar_consonant_block.length = 34 := by
  decide

/-- Claim C7, amended: from_my_alphabet returns Ok for exactly the 34
code points U+1000 to U+1021 and Err (the unit error, NotAConsonant) for
every other char, and the collapsed letters map as the claim lists. -/
theorem c7_consonant_domain_amended :
    (∀ c : Char, c.toNat < 0x1000 ∨ 0x1021 < c.toNat →
      Mlcts.BasicConsonant.from_my_alphabet c = .error ()) ∧
    Mlcts.BasicConsonant.from_my_alphabet 'ဋ' = .ok .T ∧
    Mlcts.BasicConsonant.from_my_alphabet 'တ' = .ok .T ∧
    Mlcts.BasicConsonant.from_my_alphabet 'ဌ' = .ok .Ht ∧
    Mlcts.BasicConsonant.from_my_alphabet 'ထ' = .ok .Ht ∧
    Mlcts.BasicConsonant.from_my_alphabet 'ဍ' = .ok .D ∧
    Mlcts.BasicConsonant.from_my_alphabet 'ဒ' = .ok .D ∧
    Mlcts.BasicConsonant.from_my_alphabet 'ဎ' = .ok .Dh ∧
    Mlcts.BasicConsonant.from_my_alphabet 'ဓ' = .ok .Dh ∧
    Mlcts.BasicConsonant.from_my_alphabet 'ဏ' = .ok .N ∧
    Mlcts.BasicConsonant.from_my_alphabet 'န' = .ok .N ∧
    Mlcts.BasicConsonant.from_my_alphabet 'ဉ' = .ok .Ny ∧
    Mlcts.BasicConsonant.from_my_alphabet 'ည' = .ok .Ny ∧
    Mlcts.BasicConsonant.from_my_alphabet 'ဠ' = .ok .L ∧
    Mlcts.BasicConsonant.from_my_alphabet 'လ' = .ok .L := by
  refine ⟨?_, by decide⟩
  intro c h
  unfold Mlcts.BasicConsonant.from_my_alphabet
  split
  all_goals first
    | rfl
    | exact absurd h (by decide)

/-- Claim C7, witness: the theorem applied to the ASCII letter z (whose
code point lies below the block) yields the NotAConsonant error. -/
theorem c7_consonant_domain_amended_witness :
    Mlcts.BasicConsonant.from_my_alphabet 'z' = .error () :=
  c7_consonant_domain_amended.1 'z' (Or.inl (by decide))

/-- Claim C8: from_my on the single word ပိဿာ returns exactly pissa: the
ligature ဿ is expanded to a stacked သ over သ, the parse yields consonant
P, vowel I with virama S and bottom (S, A), which serialises to pissa. -/
theorem c8_pissa :
    Mlcts.from_my ['ပ', 'ိ', 'ဿ', 'ာ'] = ['p', 'i', 's', 's', 'a'] := by
  decide

/-- Claim C10: on ကက္ကက္ခ the recursive bottom parse of parse_syllable
(on the span ကက္ခ) returns a syllable that itself carries the bottom
(Hk, A), but the conversion of that inner syllable into a BaseSyllable
discards this inner bottom: the outer result keeps only (K, A with
virama K) as its bottom, its MLCTS rendering is kakkak with the hka of
the innermost ခ omitted, while the reported consumed count 13 = 3 + 2 + 8
includes the inner count 8 that counted the bytes of ခ. -/
theorem c10_nested_bottom_discarded :
    Mlcts.parse_syllable ['က', 'က', '္', 'က', 'က', '္', 'ခ'] =
      .ok (⟨⟨.K, none⟩, ⟨.A, some .K, none⟩,
        some ⟨⟨.K, none⟩, ⟨.A, some .K, none⟩⟩⟩, 13) ∧
    Mlcts.parse_syllable ['က', 'က', '္', 'ခ'] =
      .ok (⟨⟨.K, none⟩, ⟨.A, some .K, none⟩,
        some ⟨⟨.Hk, none⟩, ⟨.A, none, none⟩⟩⟩, 8) ∧
    (⟨⟨.K, none⟩, ⟨.A, some .K, none⟩,
      some ⟨⟨.K, none⟩, ⟨.A, some .K, none⟩⟩⟩ : Mlcts.Syllable).to_mlcts =
      ['k', 'a', 'k', 'k', 'a', 'k'] := by
  decide
